import Mathlib

/-!
Shallow embedding of `fnh/webmention-receiver` (src/index.js).

The program is a webmention receiver: an HTTP endpoint validates incoming
(source, target) notifications, an in-memory queue holds admitted pairs,
and a recurring verifier task pops one pair at a time, fetches the source,
and records the outcome in a JSON-backed store (or bumps a per-source
failure counter).  JavaScript objects with optional fields are modelled as
structures with `Option` fields; JS falsiness of numbers and strings is
modelled explicitly where the code relies on it; `Date.now()` is a `Nat`
parameter; the external `fetch` is a parameter returning
`Option FetchResponse` (`none` models a rejected fetch caught by
`.catch`, which leaves `response` undefined).
-/

namespace Webmention

/-- A notification: `{ source, target }` as produced by `toMention`. -/
structure Mention where
  source : String
  target : String
deriving DecidableEq, Repr

/-- An entry of `received.webmentions`.  JS objects carry fields only when
assigned, so `mentioned`, `isMentioned` and `deleted` are `Option`s
(`none` = field absent).  `isMentioned` is the field name the 2xx update
branch of `validateMention` assigns (`existing.isMentioned = ...`),
distinct from the `mentioned` field written by the append branch. -/
structure StoreEntry where
  source : String
  target : String
  validated : Bool
  mentioned : Option Bool
  isMentioned : Option Bool
  deleted : Option Bool
  validatedAt : Nat
deriving DecidableEq, Repr

/-- The mutable module-level state of the process: the in-memory queue,
the parsed webmentions store and the parsed failure-counter object. -/
structure AppState where
  queue : List Mention
  webmentions : List StoreEntry
  failures : List (String × Nat)
deriving DecidableEq, Repr

/-- Which storage file a `writeFile` call targets. -/
inductive FileWrite where
  | mentionsFile
  | failureFile
deriving DecidableEq, Repr

/-- A fetch response as consumed by `validateMention`: status plus the
text body.  `response.ok` is `200 <= status < 300`. -/
structure FetchResponse where
  status : Nat
  body : String
deriving DecidableEq, Repr

/-- The predicate `response.ok` of the Fetch API: status in the 2xx range. -/
def FetchResponse.ok (r : FetchResponse) : Bool :=
  200 ≤ r.status && r.status < 300

/-- The closure `isDuplicate(mention)` applied to a queue entry: strict string
equality of both fields (`===` in JS). -/
def isDuplicate (mention existing : Mention) : Bool :=
  existing.source == mention.source && existing.target == mention.target

/-- The closure `isDuplicate(mention)` applied to a store entry: the same closure in
the source is used over `received.webmentions`, again comparing the two
string fields with `===`. -/
def isDuplicateEntry (mention : Mention) (existing : StoreEntry) : Bool :=
  existing.source == mention.source && existing.target == mention.target

/-- Lookup in a JS object modelled as an association list
(`failures[key]`): `none` when the property is absent. -/
def lookupKey (key : String) : List (String × Nat) → Option Nat
  | [] => none
  | (k, v) :: rest => if k == key then some v else lookupKey key rest

/-- Property assignment on a JS object modelled as an association list
(`failures[key] = v`): replace the binding if present, else append. -/
def setKey (key : String) (v : Nat) : List (String × Nat) → List (String × Nat)
  | [] => [(key, v)]
  | (k, w) :: rest => if k == key then (key, v) :: rest else (k, w) :: setKey key v rest

/-- JS truthiness of `failures[source]` (a number or `undefined`):
truthy iff present and non-zero. -/
def jsTruthyNum (o : Option Nat) : Bool :=
  o.getD 0 != 0

/-- The test `data.includes(needle)`: substring containment on strings. -/
def strIncludes (hay needle : String) : Bool :=
  (List.range (hay.length + 1)).any
    (fun i => needle.toList.isPrefixOf (hay.toList.drop i))

/-- In-place mutation of the first element found by
`received.webmentions.find(...)`: the JS `find` returns a reference, and
the code assigns fields on it, so the list keeps its shape with the first
matching element replaced. -/
def updateFirst (p : StoreEntry → Bool) (f : StoreEntry → StoreEntry) :
    List StoreEntry → List StoreEntry
  | [] => []
  | e :: es => if p e then f e :: es else e :: updateFirst p f es

/-- The admission gate `isEnqueueable(mention)`: three gates, evaluated in order —
in-flight duplicate in the queue, per-source failure budget
(`failedValidations && failedValidations > 5`), and the 24h freshness
window on a previously validated record.  `now` stands for `Date.now()`. -/
def isEnqueueable (now : Nat) (st : AppState) (mention : Mention) : Bool :=
  if (st.queue.find? (fun e => isDuplicate mention e)).isSome then
    false
  else
    let failedValidations := lookupKey mention.source st.failures
    if jsTruthyNum failedValidations && failedValidations.getD 0 > 5 then
      false
    else
      match st.webmentions.find? (fun e => isDuplicateEntry mention e) with
      | some alreadyValidated =>
          let elapsedTime : Int := (now : Int) - (alreadyValidated.validatedAt : Int)
          if elapsedTime < 24 * 60 * 60 * 1000 then false else true
      | none => true

/-- One invocation of the recurring `validateMention` task.  `now` is
`Date.now()`, `fetchOutcome` maps the fetched URL to `some response` or
`none` (rejected fetch, caught and logged, leaving `response`
undefined).  Returns the new state and the list of `writeFile` calls
performed, in order. -/
def validateMention (now : Nat) (fetchOutcome : String → Option FetchResponse)
    (st : AppState) : AppState × List FileWrite :=
  match st.queue with
  | [] => (st, [])
  | mention :: rest =>
    let response := fetchOutcome mention.source
    match response with
    | some r =>
      if r.ok then
        let isMentioned := strIncludes r.body mention.target
        let webmentions :=
          if (st.webmentions.find? (fun e => isDuplicateEntry mention e)).isSome then
            updateFirst (fun e => isDuplicateEntry mention e)
              (fun e => { e with validatedAt := now, isMentioned := some isMentioned })
              st.webmentions
          else
            st.webmentions ++ [{ source := mention.source, target := mention.target,
                                 validated := true, mentioned := some isMentioned,
                                 isMentioned := none, deleted := none,
                                 validatedAt := now }]
        ({ st with queue := rest, webmentions := webmentions }, [FileWrite.mentionsFile])
      else if r.status == 410 then
        let webmentions :=
          if (st.webmentions.find? (fun e => isDuplicateEntry mention e)).isSome then
            updateFirst (fun e => isDuplicateEntry mention e)
              (fun e => { e with validatedAt := now, deleted := some true })
              st.webmentions
          else
            st.webmentions ++ [{ source := mention.source, target := mention.target,
                                 validated := true, mentioned := none,
                                 isMentioned := none, deleted := some true,
                                 validatedAt := now }]
        ({ st with queue := rest, webmentions := webmentions }, [FileWrite.mentionsFile])
      else
        let failures :=
          if !(jsTruthyNum (lookupKey mention.source st.failures)) then
            setKey mention.source 1 st.failures
          else
            setKey mention.source ((lookupKey mention.source st.failures).getD 0 + 1)
              st.failures
        ({ st with queue := rest, failures := failures }, [FileWrite.failureFile])
    | none =>
        let failures :=
          if !(jsTruthyNum (lookupKey mention.source st.failures)) then
            setKey mention.source 1 st.failures
          else
            setKey mention.source ((lookupKey mention.source st.failures).getD 0 + 1)
              st.failures
        ({ st with queue := rest, failures := failures }, [FileWrite.failureFile])

/-- The request-level data `isValid` inspects: the method string and the
headers object (`none` models a missing/falsy `request.headers`;
otherwise an association list of header name to value). -/
structure Request where
  method : String
  headers : Option (List (String × String))
deriving DecidableEq, Repr

/-- Header lookup, `request.headers["content-type"]`.  When the headers
object is absent the short-circuiting `some` over the predicate list
never reaches this access; mapping absence to `none` here keeps the
function total without affecting any reachable result. -/
def headerLookup (req : Request) (name : String) : Option String :=
  match req.headers with
  | none => none
  | some hs =>
    match hs.find? (fun kv => kv.1 == name) with
    | some kv => some kv.2
    | none => none

/-- The accessor `payload.get(key)` on a parsed `URLSearchParams`: the first value
bound to the key, or `none` when the parameter is absent. -/
def getParam (params : List (String × String)) (key : String) : Option String :=
  match params.find? (fun kv => kv.1 == key) with
  | some kv => some kv.2
  | none => none

/-- The parser `toMention(body)`: extract `source` and `target`, returning `null`
when either is absent or empty (`!payload.get(...)`, where both `null`
and the empty string are falsy). -/
def toMention (params : List (String × String)) : Option Mention :=
  match getParam params "source", getParam params "target" with
  | some s, some t => if s = "" || t = "" then none else some { source := s, target := t }
  | _, _ => none

/-- The list `BAD_REQUEST_PREDICATES`, in source order.  `canParse` abstracts the
host `URL.canParse` (syntactic absolute-URL validity); `allowed` is
`ALLOWED_TARGET_BASE_URLS`.  Predicates that dereference `mention`
evaluate it via `getD` — whenever `mention` is `null` the earlier
`!mention` predicate already yields `true`, so the defaulted values never
influence the result of `Array.prototype.some`. -/
def BAD_REQUEST_PREDICATES (canParse : String → Bool) (allowed : List String) :
    List (Request → Option Mention → Bool) :=
  [ fun request _ => request.method != "POST"
  , fun request _ => request.headers.isNone
  , fun request _ => headerLookup request "content-type" != some "application/x-www-form-urlencoded"
  , fun _ mention => mention.isNone
  , fun _ mention => (mention.getD ⟨"", ""⟩).target == (mention.getD ⟨"", ""⟩).source
  , fun _ mention => !canParse (mention.getD ⟨"", ""⟩).source
  , fun _ mention => !canParse (mention.getD ⟨"", ""⟩).target
  , fun _ mention =>
      decide (allowed.length > 0)
      && !(allowed.any (fun allowedBaseUrl => (mention.getD ⟨"", ""⟩).target.startsWith allowedBaseUrl))
  , fun _ mention =>
      !((mention.getD ⟨"", ""⟩).target.startsWith "https://"
        || (mention.getD ⟨"", ""⟩).target.startsWith "http://") ]

/-- The validator `isValid(request, mention)`: no predicate of the bad-request list
fires. -/
def isValid (canParse : String → Bool) (allowed : List String)
    (request : Request) (mention : Option Mention) : Bool :=
  !((BAD_REQUEST_PREDICATES canParse allowed).any (fun isBad => isBad request mention))

/-- The request-handling callback of `http.createServer`, after the body
has been collected and parsed into `params`: returns the HTTP status
written and the state after any enqueue.  A valid request whose mention
is `null` cannot occur (`!mention` is a bad-request predicate); in the
source that path would throw inside `isEnqueueable` and be caught,
yielding 500, which the dead branch mirrors. -/
def handleRequest (canParse : String → Bool) (allowed : List String) (now : Nat)
    (st : AppState) (request : Request) (params : List (String × String)) :
    Nat × AppState :=
  let mention := toMention params
  if isValid canParse allowed request mention then
    match mention with
    | some m =>
        if isEnqueueable now st m then
          (202, { st with queue := st.queue ++ [m] })
        else
          (500, st)
    | none => (500, st)
  else
    (400, st)

/-! ### Specification-side definitions -/

/-- Outcome classifier used to state the write discipline: the verifier
writes the notifications file exactly on a 2xx (`response.ok`) or 410
outcome, and the failures file otherwise (including a rejected fetch,
modelled by `none`). -/
def writesStore : Option FetchResponse → Bool
  | some r => r.ok || r.status == 410
  | none => false

/-- The identity of a store entry: its (source, target) pair. -/
def entryKey (e : StoreEntry) : String × String :=
  (e.source, e.target)

/-- The Store invariant: at most one entry per (source, target) pair. -/
def PairUnique (wms : List StoreEntry) : Prop :=
  (wms.map entryKey).Nodup

/-! ### Concrete scenario values -/

/-- The concrete notification of the spec's worked scenario. -/
def mentionA : Mention :=
  { source := "https://a.example/post", target := "https://b.example/page" }

/-- A state with one queued notification and empty store and counters. -/
def stateA : AppState :=
  { queue := [mentionA], webmentions := [], failures := [] }

/-- A variant of `mentionA` whose source differs only by a trailing
slash. -/
def mentionSlash : Mention :=
  { source := "https://a.example/post/", target := "https://b.example/page" }

/-- A fetched body that contains the target of `mentionA` verbatim. -/
def bodyA : String := "see https://b.example/page here"

/-- A store entry for `mentionA`, previously verified with
`mentioned = false` at time 0. -/
def entryStale : StoreEntry :=
  { source := "https://a.example/post", target := "https://b.example/page",
    validated := true, mentioned := some false, isMentioned := none,
    deleted := none, validatedAt := 0 }

/-- A store entry for `mentionA`, previously verified with
`mentioned = true` at time 0. -/
def entryMentioned : StoreEntry :=
  { entryStale with mentioned := some true }

/-- A fetch that returns 200 with body `bodyA` for every URL. -/
def fetch200A : String → Option FetchResponse :=
  fun _ => some { status := 200, body := bodyA }

/-- A fetch that returns 410 for every URL. -/
def fetch410A : String → Option FetchResponse :=
  fun _ => some { status := 410, body := "" }

/-- A fetch that rejects (network failure) for every URL. -/
def fetchFailA : String → Option FetchResponse :=
  fun _ => none

/-- A well-formed POST request with the form-encoded content type. -/
def requestA : Request :=
  { method := "POST",
    headers := some [("content-type", "application/x-www-form-urlencoded")] }

/-! ### Helper lemmas -/

theorem lookupKey_setKey_self (key : String) (v : Nat) (l : List (String × Nat)) :
    lookupKey key (setKey key v l) = some v := by
  induction l with
  | nil => simp [setKey, lookupKey]
  | cons kv rest ih =>
      obtain ⟨k, w⟩ := kv
      by_cases h : k == key
      · simp [setKey, h, lookupKey]
      · simp [setKey, h, lookupKey, ih]

theorem lookupKey_setKey_other (key key' : String) (v : Nat) (l : List (String × Nat))
    (h : key' ≠ key) :
    lookupKey key' (setKey key v l) = lookupKey key' l := by
  induction l with
  | nil => simp [setKey, lookupKey, Ne.symm h]
  | cons kv rest ih =>
      obtain ⟨k, w⟩ := kv
      by_cases hk : k = key
      · subst hk
        simp [setKey, lookupKey, Ne.symm h]
      · simp [setKey, lookupKey, beq_iff_eq, hk, ih]

theorem jsTruthyNum_false_iff (o : Option Nat) :
    jsTruthyNum o = false ↔ o.getD 0 = 0 := by
  cases o with
  | none => simp [jsTruthyNum]
  | some n => simp [jsTruthyNum]

/-- The failure-counter mutation of the failure branch always ends with
the bumped value `old + 1` under the source's key. -/
theorem lookupKey_bump (src : String) (l : List (String × Nat)) :
    lookupKey src
      (if !(jsTruthyNum (lookupKey src l)) then setKey src 1 l
       else setKey src ((lookupKey src l).getD 0 + 1) l)
      = some ((lookupKey src l).getD 0 + 1) := by
  by_cases h : jsTruthyNum (lookupKey src l)
  · simp [h, lookupKey_setKey_self]
  · have h0 : (lookupKey src l).getD 0 = 0 :=
      (jsTruthyNum_false_iff _).mp (by simpa using h)
    simp [h, lookupKey_setKey_self, h0]

/-- The bump never moves any key's value downward. -/
theorem lookupKey_bump_mono (src s : String) (l : List (String × Nat)) :
    (lookupKey s l).getD 0 ≤
      (lookupKey s
        (if !(jsTruthyNum (lookupKey src l)) then setKey src 1 l
         else setKey src ((lookupKey src l).getD 0 + 1) l)).getD 0 := by
  by_cases hs : s = src
  · subst hs
    rw [lookupKey_bump]
    simp
  · by_cases h : jsTruthyNum (lookupKey src l)
    · simp [h, lookupKey_setKey_other src s _ _ hs]
    · simp [h, lookupKey_setKey_other src s _ _ hs]

theorem updateFirst_map {α : Type} (g : StoreEntry → α) (p : StoreEntry → Bool)
    (f : StoreEntry → StoreEntry) (hf : ∀ e, g (f e) = g e) (l : List StoreEntry) :
    (updateFirst p f l).map g = l.map g := by
  induction l with
  | nil => simp [updateFirst]
  | cons e es ih =>
      by_cases h : p e
      · simp [updateFirst, h, hf]
      · simp [updateFirst, h, ih]

theorem updateFirst_append_left (p : StoreEntry → Bool) (f : StoreEntry → StoreEntry)
    (l1 l2 : List StoreEntry) (h : ∀ e ∈ l1, p e = false) :
    updateFirst p f (l1 ++ l2) = l1 ++ updateFirst p f l2 := by
  induction l1 with
  | nil => simp
  | cons e es ih =>
      have he : p e = false := h e (by simp)
      simp [updateFirst, he]
      exact ih (fun e' he' => h e' (by simp [he']))

theorem isDuplicateEntry_eq (m : Mention) (e : StoreEntry) :
    isDuplicateEntry m e = true ↔ (e.source = m.source ∧ e.target = m.target) := by
  simp [isDuplicateEntry]

theorem isDuplicateEntry_key (m : Mention) (e : StoreEntry) :
    isDuplicateEntry m e = true ↔ entryKey e = (m.source, m.target) := by
  simp [isDuplicateEntry, entryKey, Prod.ext_iff]

/-! ### Branch equations for the verifier step -/

theorem validateMention_nil (now : Nat) (fetchOutcome : String → Option FetchResponse)
    (st : AppState) (h : st.queue = []) :
    validateMention now fetchOutcome st = (st, []) := by
  simp [validateMention, h]

theorem validateMention_success (now : Nat) (fetchOutcome : String → Option FetchResponse)
    (st : AppState) (m : Mention) (rest : List Mention) (r : FetchResponse)
    (hq : st.queue = m :: rest) (hr : fetchOutcome m.source = some r) (hok : r.ok = true) :
    validateMention now fetchOutcome st =
      ({ st with
            queue := rest,
            webmentions :=
              if (st.webmentions.find? (fun e => isDuplicateEntry m e)).isSome then
                updateFirst (fun e => isDuplicateEntry m e)
                  (fun e => { e with
                                validatedAt := now,
                                isMentioned := some (strIncludes r.body m.target) })
                  st.webmentions
              else
                st.webmentions ++ [{ source := m.source, target := m.target,
                                     validated := true,
                                     mentioned := some (strIncludes r.body m.target),
                                     isMentioned := none, deleted := none,
                                     validatedAt := now }] },
       [FileWrite.mentionsFile]) := by
  simp [validateMention, hq, hr, hok]

theorem validateMention_gone (now : Nat) (fetchOutcome : String → Option FetchResponse)
    (st : AppState) (m : Mention) (rest : List Mention) (r : FetchResponse)
    (hq : st.queue = m :: rest) (hr : fetchOutcome m.source = some r)
    (hok : r.ok = false) (h410 : r.status = 410) :
    validateMention now fetchOutcome st =
      ({ st with
            queue := rest,
            webmentions :=
              if (st.webmentions.find? (fun e => isDuplicateEntry m e)).isSome then
                updateFirst (fun e => isDuplicateEntry m e)
                  (fun e => { e with validatedAt := now, deleted := some true })
                  st.webmentions
              else
                st.webmentions ++ [{ source := m.source, target := m.target,
                                     validated := true, mentioned := none,
                                     isMentioned := none, deleted := some true,
                                     validatedAt := now }] },
       [FileWrite.mentionsFile]) := by
  simp [validateMention, hq, hr, hok, h410]

theorem validateMention_failure (now : Nat) (fetchOutcome : String → Option FetchResponse)
    (st : AppState) (m : Mention) (rest : List Mention)
    (hq : st.queue = m :: rest) (hfail : writesStore (fetchOutcome m.source) = false) :
    validateMention now fetchOutcome st =
      ({ st with
            queue := rest,
            failures :=
              if !(jsTruthyNum (lookupKey m.source st.failures)) then
                setKey m.source 1 st.failures
              else
                setKey m.source ((lookupKey m.source st.failures).getD 0 + 1) st.failures },
       [FileWrite.failureFile]) := by
  cases hr : fetchOutcome m.source with
  | none => simp [validateMention, hq, hr]
  | some r =>
      rw [hr] at hfail
      simp only [writesStore, Bool.or_eq_false_iff] at hfail
      simp [validateMention, hq, hr, hfail.1, hfail.2]

/-- Both 2xx and 410 upserts preserve pair-uniqueness of the store: the
update branch rewrites fields of one entry without touching its key, and
the append branch only runs when no entry with the mention's key
exists. -/
theorem PairUnique_upsert (wm : List StoreEntry) (m : Mention) (f : StoreEntry → StoreEntry)
    (hf : ∀ e, entryKey (f e) = entryKey e) (fresh : StoreEntry)
    (hkey : entryKey fresh = (m.source, m.target))
    (h : PairUnique wm) :
    PairUnique
      (if (wm.find? (fun e => isDuplicateEntry m e)).isSome then
         updateFirst (fun e => isDuplicateEntry m e) f wm
       else wm ++ [fresh]) := by
  by_cases hs : (wm.find? (fun e => isDuplicateEntry m e)).isSome = true
  · rw [if_pos hs]
    unfold PairUnique
    rw [updateFirst_map entryKey _ f hf]
    exact h
  · rw [if_neg hs]
    have hnone : wm.find? (fun e => isDuplicateEntry m e) = none := by
      cases hh : wm.find? (fun e => isDuplicateEntry m e) with
      | none => rfl
      | some a => rw [hh] at hs; simp at hs
    have hall := List.find?_eq_none.mp hnone
    unfold PairUnique
    rw [List.map_append, List.nodup_append]
    refine ⟨h, by simp, ?_⟩
    intro k hk hk2
    simp only [List.map_cons, List.map_nil, List.mem_singleton] at hk2
    obtain ⟨e, he, hke⟩ := List.mem_map.mp hk
    apply hall e he
    rw [isDuplicateEntry_key, hke, hk2, hkey]

/-- One verifier invocation preserves the at-most-one-entry-per-pair
invariant of the store, whatever the fetch outcome. -/
theorem validateMention_preserves_PairUnique (now : Nat)
    (fetchOutcome : String → Option FetchResponse) (st : AppState)
    (h : PairUnique st.webmentions) :
    PairUnique (validateMention now fetchOutcome st).1.webmentions := by
  cases hq : st.queue with
  | nil => rw [validateMention_nil now fetchOutcome st hq]; exact h
  | cons mn rest =>
      cases hr : fetchOutcome mn.source with
      | none =>
          rw [validateMention_failure now fetchOutcome st mn rest hq (by simp [writesStore, hr])]
          exact h
      | some r =>
          by_cases hok : r.ok = true
          · rw [validateMention_success now fetchOutcome st mn rest r hq hr hok]
            exact PairUnique_upsert st.webmentions mn
              (fun e => { e with
                  validatedAt := now,
                  isMentioned := some (strIncludes r.body mn.target) })
              (fun e => rfl)
              { source := mn.source, target := mn.target, validated := true,
                mentioned := some (strIncludes r.body mn.target), isMentioned := none,
                deleted := none, validatedAt := now }
              rfl h
          · by_cases h410 : r.status = 410
            · rw [validateMention_gone now fetchOutcome st mn rest r hq hr
                    (by simpa using hok) h410]
              exact PairUnique_upsert st.webmentions mn
                (fun e => { e with validatedAt := now, deleted := some true })
                (fun e => rfl)
                { source := mn.source, target := mn.target, validated := true,
                  mentioned := none, isMentioned := none, deleted := some true,
                  validatedAt := now }
                rfl h
            · rw [validateMention_failure now fetchOutcome st mn rest hq
                    (by simp [writesStore, hr, Bool.eq_false_iff.mpr hok, h410])]
              exact h

/-- The validator accepts exactly when every predicate of the bad-request
list evaluates to `false`, spelled out predicate by predicate. -/
theorem isValid_components (canParse : String → Bool) (allowed : List String)
    (request : Request) (mention : Option Mention) :
    isValid canParse allowed request mention = true ↔
      ((request.method != "POST") = false ∧
       request.headers.isNone = false ∧
       (headerLookup request "content-type"
          != some "application/x-www-form-urlencoded") = false ∧
       mention.isNone = false ∧
       ((mention.getD ⟨"", ""⟩).target == (mention.getD ⟨"", ""⟩).source) = false ∧
       (!canParse (mention.getD ⟨"", ""⟩).source) = false ∧
       (!canParse (mention.getD ⟨"", ""⟩).target) = false ∧
       (decide (allowed.length > 0)
          && !(allowed.any
                (fun allowedBaseUrl =>
                  (mention.getD ⟨"", ""⟩).target.startsWith allowedBaseUrl))) = false ∧
       (!((mention.getD ⟨"", ""⟩).target.startsWith "https://"
          || (mention.getD ⟨"", ""⟩).target.startsWith "http://")) = false) := by
  simp only [isValid, BAD_REQUEST_PREDICATES, List.any_cons, List.any_nil,
    Bool.or_false, Bool.not_eq_true', Bool.or_eq_false_iff]

theorem isNone_eq_false_iff_ne_none {α : Type} (o : Option α) :
    o.isNone = false ↔ o ≠ none := by
  cases o <;> simp

/-! ### Claim theorems -/

/-- C1: the claim says that on a 2xx fetch with an existing store entry
for the pair, the entry's `mentioned` field is updated in place to the
substring-test result.  The code instead assigns a differently named
field (`existing.isMentioned = isMentioned`), leaving `mentioned` stale:
here the fetched body contains the target, yet the stored entry keeps
`mentioned = some false` while acquiring `isMentioned = some true`. -/
theorem c1_update_leaves_mentioned_stale :
    strIncludes bodyA mentionA.target = true ∧
    (validateMention 1000 fetch200A
        { queue := [mentionA], webmentions := [entryStale],
          failures := [] }).1.webmentions.map (fun e => (e.mentioned, e.isMentioned))
      = [(some false, some true)] := by
  constructor
  · rfl
  · rfl

/-- C2 as stated is false: on a 410 for a pair whose existing entry was
previously verified with `mentioned = some true`, the update branch sets
`deleted` and `validatedAt` but the `mentioned` field remains present
(still `some true`), so the resulting entry does not lack a `mentioned`
field. -/
theorem c2_counterexample :
    (validateMention 1000 fetch410A
        { queue := [mentionA], webmentions := [entryMentioned],
          failures := [] }).1.webmentions.map (fun e => (e.deleted, e.mentioned))
      = [(some true, some true)] := by
  rfl

/-- C2 amended: on an HTTP 410 outcome, a fresh append produces an entry
with `deleted = true` and no `mentioned` field; an update of an existing
entry sets `deleted = true` and `validatedAt` in place and never writes
the `mentioned` field, so every entry's `mentioned` field is exactly what
it was before the step. -/
theorem c2_gone_upsert (now : Nat) (fetchOutcome : String → Option FetchResponse)
    (st : AppState) (m : Mention) (rest : List Mention) (r : FetchResponse)
    (hq : st.queue = m :: rest) (hr : fetchOutcome m.source = some r)
    (hok : r.ok = false) (h410 : r.status = 410) :
    (st.webmentions.find? (fun e => isDuplicateEntry m e) = none →
       (validateMention now fetchOutcome st).1.webmentions
         = st.webmentions ++ [{ source := m.source, target := m.target,
                                validated := true, mentioned := none,
                                isMentioned := none, deleted := some true,
                                validatedAt := now }]) ∧
    ((st.webmentions.find? (fun e => isDuplicateEntry m e)).isSome = true →
       (validateMention now fetchOutcome st).1.webmentions
         = updateFirst (fun e => isDuplicateEntry m e)
             (fun e => { e with validatedAt := now, deleted := some true })
             st.webmentions ∧
       (validateMention now fetchOutcome st).1.webmentions.map StoreEntry.mentioned
         = st.webmentions.map StoreEntry.mentioned) := by
  rw [validateMention_gone now fetchOutcome st m rest r hq hr hok h410]
  constructor
  · intro hnone
    simp [hnone]
  · intro hsome
    refine ⟨by simp [hsome], ?_⟩
    simp only [hsome, if_true]
    exact updateFirst_map StoreEntry.mentioned (fun e => isDuplicateEntry m e)
      (fun e => { e with validatedAt := now, deleted := some true })
      (fun e => rfl) st.webmentions

/-- Witness for `c2_gone_upsert`: instantiated on the concrete 410
scenario with an empty store, the appended entry carries `deleted = true`
and no `mentioned` field. -/
theorem c2_gone_upsert_witness :
    fetch410A mentionA.source = some { status := 410, body := "" } ∧
    (validateMention 1000 fetch410A stateA).1.webmentions
      = [{ source := mentionA.source, target := mentionA.target,
           validated := true, mentioned := none, isMentioned := none,
           deleted := some true, validatedAt := 1000 }] := by
  refine ⟨rfl, ?_⟩
  have h := (c2_gone_upsert 1000 fetch410A stateA mentionA [] { status := 410, body := "" }
      rfl rfl rfl rfl).1 rfl
  simpa [stateA] using h

/-- C3: the store keeps at most one entry per (source, target) pair —
every verifier step preserves the invariant — and processing the same
pair twice with successful fetches, once fresh and once as an update,
leaves exactly one entry for the pair, carrying the later
`validatedAt`. -/
theorem c3_pair_unique_and_idempotent
    (now1 now2 : Nat) (fetch1 fetch2 : String → Option FetchResponse)
    (st : AppState) (m : Mention) (q1 q2 : List Mention) (r1 r2 : FetchResponse)
    (hfresh : st.webmentions.find? (fun e => isDuplicateEntry m e) = none)
    (hf1 : fetch1 m.source = some r1) (hok1 : r1.ok = true)
    (hf2 : fetch2 m.source = some r2) (hok2 : r2.ok = true) :
    (∀ (now : Nat) (fetchOutcome : String → Option FetchResponse) (st' : AppState),
        PairUnique st'.webmentions →
        PairUnique (validateMention now fetchOutcome st').1.webmentions) ∧
    (((validateMention now2 fetch2
          { (validateMention now1 fetch1 { st with queue := m :: q1 }).1 with
              queue := m :: q2 }).1.webmentions.filter
        (fun e => isDuplicateEntry m e)).map StoreEntry.validatedAt) = [now2] := by
  refine ⟨fun now fo st' h => validateMention_preserves_PairUnique now fo st' h, ?_⟩
  have hall : ∀ e ∈ st.webmentions, (fun e => isDuplicateEntry m e) e = false :=
    fun e he => Bool.eq_false_iff.mpr (List.find?_eq_none.mp hfresh e he)
  rw [validateMention_success now1 fetch1 { st with queue := m :: q1 } m q1 r1 rfl hf1 hok1]
  have hcond1 : (st.webmentions.find? (fun e => isDuplicateEntry m e)).isSome = false := by
    rw [hfresh]; rfl
  rw [if_neg (by rw [hcond1]; simp)]
  set fresh1 : StoreEntry :=
    { source := m.source, target := m.target, validated := true,
      mentioned := some (strIncludes r1.body m.target), isMentioned := none,
      deleted := none, validatedAt := now1 } with hfresh1
  have hp1 : isDuplicateEntry m fresh1 = true := by
    simp [isDuplicateEntry, hfresh1]
  have hfind2 : ((st.webmentions ++ [fresh1]).find? (fun e => isDuplicateEntry m e))
      = some fresh1 := by
    rw [List.find?_append, hfresh]
    simp [List.find?, hp1]
  rw [validateMention_success now2 fetch2 _ m q2 r2 rfl hf2 hok2]
  rw [if_pos (by rw [hfind2]; rfl)]
  rw [updateFirst_append_left _ _ st.webmentions [fresh1] hall]
  have hupd : updateFirst (fun e => isDuplicateEntry m e)
      (fun e => { e with
          validatedAt := now2,
          isMentioned := some (strIncludes r2.body m.target) }) [fresh1]
      = [{ fresh1 with
            validatedAt := now2,
            isMentioned := some (strIncludes r2.body m.target) }] := by
    simp [updateFirst, hp1]
  rw [hupd, List.filter_append]
  have hnilf : st.webmentions.filter (fun e => isDuplicateEntry m e) = [] :=
    List.filter_eq_nil_iff.mpr
      (fun e he => Bool.eq_false_iff.mp (hall e he))
  rw [hnilf]
  simp [isDuplicateEntry, hfresh1]

/-- Witness for `c3_pair_unique_and_idempotent`: the concrete pair
verified at time 1000 and re-verified at time 2000 ends with exactly one
store entry, stamped 2000. -/
theorem c3_pair_unique_witness :
    (([] : List StoreEntry).find? (fun e => isDuplicateEntry mentionA e) = none) ∧
    (((validateMention 2000 fetch200A
          { (validateMention 1000 fetch200A { stateA with queue := mentionA :: [] }).1 with
              queue := mentionA :: [] }).1.webmentions.filter
        (fun e => isDuplicateEntry mentionA e)).map StoreEntry.validatedAt) = [2000] := by
  exact ⟨rfl,
    (c3_pair_unique_and_idempotent 1000 2000 fetch200A fetch200A stateA mentionA [] []
      { status := 200, body := bodyA } { status := 200, body := bodyA }
      rfl rfl rfl rfl rfl).2⟩

/-- C4: every invocation of the verifier on a non-empty queue performs
exactly one durable write — to the notifications file on a 2xx or 410
outcome and to the failures file on any other outcome — and an
invocation on an empty queue performs none. -/
theorem c4_exactly_one_write (now : Nat) (fetchOutcome : String → Option FetchResponse)
    (st : AppState) :
    (validateMention now fetchOutcome st).2 =
      (match st.queue with
       | [] => []
       | m :: _ =>
           [if writesStore (fetchOutcome m.source) then FileWrite.mentionsFile
            else FileWrite.failureFile]) := by
  cases hq : st.queue with
  | nil => rw [validateMention_nil now fetchOutcome st hq]
  | cons m rest =>
      cases hr : fetchOutcome m.source with
      | none =>
          rw [validateMention_failure now fetchOutcome st m rest hq (by simp [writesStore, hr])]
          simp [writesStore, hr]
      | some r =>
          by_cases hok : r.ok = true
          · rw [validateMention_success now fetchOutcome st m rest r hq hr hok]
            simp [writesStore, hr, hok]
          · by_cases h410 : r.status = 410
            · rw [validateMention_gone now fetchOutcome st m rest r hq hr
                    (by simpa using hok) h410]
              simp [writesStore, hr, h410]
            · rw [validateMention_failure now fetchOutcome st m rest hq
                    (by simp [writesStore, hr, Bool.eq_false_iff.mpr hok, h410])]
              simp [writesStore, hr, Bool.eq_false_iff.mpr hok, h410]

/-- C5: on a non-success outcome (rejected fetch or a status that is
neither 2xx nor 410), the store is untouched, the failure counter for
the notification's source becomes its old value plus one (so 1 when it
was absent), and the single persisted file is the failure-counter file. -/
theorem c5_failure_outcome (now : Nat) (fetchOutcome : String → Option FetchResponse)
    (st : AppState) (m : Mention) (rest : List Mention)
    (hq : st.queue = m :: rest)
    (hfail : writesStore (fetchOutcome m.source) = false) :
    (validateMention now fetchOutcome st).1.webmentions = st.webmentions ∧
    lookupKey m.source (validateMention now fetchOutcome st).1.failures
      = some ((lookupKey m.source st.failures).getD 0 + 1) ∧
    (validateMention now fetchOutcome st).2 = [FileWrite.failureFile] := by
  rw [validateMention_failure now fetchOutcome st m rest hq hfail]
  exact ⟨rfl, lookupKey_bump m.source st.failures, rfl⟩

/-- Witness for `c5_failure_outcome`: on a rejected fetch with empty
failure counters, the counter for `https://a.example/post` becomes 1,
the store stays empty, and only the failures file is written. -/
theorem c5_failure_witness :
    writesStore (fetchFailA mentionA.source) = false ∧
    (validateMention 1000 fetchFailA stateA).1.webmentions = [] ∧
    lookupKey mentionA.source (validateMention 1000 fetchFailA stateA).1.failures = some 1 ∧
    (validateMention 1000 fetchFailA stateA).2 = [FileWrite.failureFile] := by
  have h := c5_failure_outcome 1000 fetchFailA stateA mentionA [] rfl rfl
  exact ⟨rfl, h.1, h.2.1, h.2.2⟩

/-- C6: under the at-most-one-entry-per-pair store invariant,
`isEnqueueable` returns `false` exactly when one of the three gates
fails — the pair is already queued, the source's failure counter exceeds
5, or a previously validated record for the pair has a `validatedAt`
within the last 24 hours — and returns `true` otherwise. -/
theorem c6_isEnqueueable_gates (now : Nat) (st : AppState) (m : Mention)
    (hinv : PairUnique st.webmentions) :
    isEnqueueable now st m = false ↔
      ((∃ e ∈ st.queue, isDuplicate m e = true) ∨
       5 < (lookupKey m.source st.failures).getD 0 ∨
       (∃ e ∈ st.webmentions, isDuplicateEntry m e = true ∧
          (now : Int) - (e.validatedAt : Int) < 24 * 60 * 60 * 1000)) := by
  have hBiff : (jsTruthyNum (lookupKey m.source st.failures) &&
      decide ((lookupKey m.source st.failures).getD 0 > 5)) = true
      ↔ 5 < (lookupKey m.source st.failures).getD 0 := by
    cases ho : lookupKey m.source st.failures with
    | none => simp [jsTruthyNum]
    | some n =>
        simp only [jsTruthyNum, Option.getD_some, Bool.and_eq_true, bne_iff_ne, ne_eq,
          decide_eq_true_eq, gt_iff_lt]
        omega
  simp only [isEnqueueable]
  cases hfq : st.queue.find? (fun e => isDuplicate m e) with
  | some a =>
      have hmem := List.mem_of_find?_eq_some hfq
      have hp := List.find?_some hfq
      simp only [hfq, Option.isSome_some]
      rw [if_pos trivial]
      exact ⟨fun _ => Or.inl ⟨a, hmem, hp⟩, fun _ => rfl⟩
  | none =>
      have hqnone : ¬ ∃ e ∈ st.queue, isDuplicate m e = true := by
        rw [← List.find?_isSome, hfq]
        simp
      simp only [hfq, Option.isSome_none]
      rw [if_neg (by simp)]
      by_cases hB : (jsTruthyNum (lookupKey m.source st.failures) &&
          decide ((lookupKey m.source st.failures).getD 0 > 5)) = true
      · rw [if_pos hB]
        exact ⟨fun _ => Or.inr (Or.inl (hBiff.mp hB)), fun _ => rfl⟩
      · rw [if_neg hB]
        have hB' : ¬ 5 < (lookupKey m.source st.failures).getD 0 :=
          fun h => hB (hBiff.mpr h)
        cases hfw : st.webmentions.find? (fun e => isDuplicateEntry m e) with
        | none =>
            simp only [hfw]
            constructor
            · intro h
              simp at h
            · rintro (h | h | ⟨e, hmem, hpe, _⟩)
              · exact (hqnone h).elim
              · exact (hB' h).elim
              · exact ((List.find?_eq_none.mp hfw e hmem) hpe).elim
        | some a =>
            have hamem := List.mem_of_find?_eq_some hfw
            have hpa := List.find?_some hfw
            simp only [hfw]
            show (if (now : Int) - (a.validatedAt : Int) < 24 * 60 * 60 * 1000
                  then false else true) = false ↔ _
            by_cases hfresh : (now : Int) - (a.validatedAt : Int) < 24 * 60 * 60 * 1000
            · rw [if_pos hfresh]
              exact ⟨fun _ => Or.inr (Or.inr ⟨a, hamem, hpa, hfresh⟩), fun _ => rfl⟩
            · rw [if_neg hfresh]
              constructor
              · intro h
                simp at h
              · rintro (h | h | ⟨e, hmem, hpe, hef⟩)
                · exact (hqnone h).elim
                · exact (hB' h).elim
                · have hea : e = a := List.inj_on_of_nodup_map hinv hmem hamem
                    (by rw [(isDuplicateEntry_key m e).mp hpe,
                            (isDuplicateEntry_key m a).mp hpa])
                  exact (hfresh (hea ▸ hef)).elim

/-- Witness for `c6_isEnqueueable_gates`: a store holding only the
freshly validated `entryStale` satisfies the pair-uniqueness invariant,
and resubmitting the same pair at time 1000 (inside the 24h window) is
rejected, matching the freshness disjunct. -/
theorem c6_isEnqueueable_gates_witness :
    PairUnique ([entryStale] : List StoreEntry) ∧
    (isEnqueueable 1000 { queue := [], webmentions := [entryStale], failures := [] } mentionA
        = false ↔
      ((∃ e ∈ ([] : List Mention), isDuplicate mentionA e = true) ∨
       5 < (lookupKey mentionA.source []).getD 0 ∨
       (∃ e ∈ [entryStale], isDuplicateEntry mentionA e = true ∧
          ((1000 : Nat) : Int) - (e.validatedAt : Int) < 24 * 60 * 60 * 1000))) := by
  have hinv : PairUnique ([entryStale] : List StoreEntry) := by
    simp [PairUnique]
  exact ⟨hinv,
    c6_isEnqueueable_gates 1000 { queue := [], webmentions := [entryStale], failures := [] }
      mentionA hinv⟩

/-- C7: the validator accepts exactly when every rejection rule is
unviolated — POST method, headers present with the form-encoded content
type, a parsed mention with both fields, target distinct from source,
both fields parseable as URLs, target matching a non-empty allow-list,
and target scheme http(s) — and any violation yields a 400 response. -/
theorem c7_validator_accepts_iff (canParse : String → Bool) (allowed : List String)
    (request : Request) (params : List (String × String)) (now : Nat) (st : AppState) :
    (isValid canParse allowed request (toMention params) = true ↔
      (request.method = "POST" ∧
       request.headers ≠ none ∧
       headerLookup request "content-type" = some "application/x-www-form-urlencoded" ∧
       ∃ m : Mention, toMention params = some m ∧
         m.target ≠ m.source ∧
         canParse m.source = true ∧
         canParse m.target = true ∧
         (allowed ≠ [] → ∃ u ∈ allowed, m.target.startsWith u = true) ∧
         (m.target.startsWith "https://" = true ∨ m.target.startsWith "http://" = true))) ∧
    ((handleRequest canParse allowed now st request params).1 = 400 ↔
      isValid canParse allowed request (toMention params) = false) := by
  constructor
  · rw [isValid_components]
    cases hm : toMention params with
    | none => simp
    | some m =>
        simp only [hm, Option.isNone_some, Option.getD_some, Option.some.injEq]
        constructor
        · rintro ⟨h1, h2, h3, -, h5, h6, h7, h8, h9⟩
          refine ⟨by simpa using h1, (isNone_eq_false_iff_ne_none _).mp h2,
            by simpa using h3, m, rfl, by simpa using h5, by simpa using h6,
            by simpa using h7, ?_, ?_⟩
          · intro hne
            rcases Bool.and_eq_false_iff.mp h8 with h | h
            · have : allowed.length = 0 := by simpa using h
              exact absurd (List.length_eq_zero.mp this) hne
            · have hany : allowed.any
                  (fun u => m.target.startsWith u) = true := by simpa using h
              exact List.any_eq_true.mp hany
          · have himp : m.target.startsWith "https://" = false →
                m.target.startsWith "http://" = true := by simpa using h9
            by_cases hx : m.target.startsWith "https://" = true
            · exact Or.inl hx
            · exact Or.inr (himp (Bool.eq_false_iff.mpr hx))
        · rintro ⟨h1, h2, h3, m', rfl, h5, h6, h7, h8, h9⟩
          refine ⟨by simp [h1], (isNone_eq_false_iff_ne_none _).mpr h2,
            by simp [h3], trivial, by simp [h5], by simp [h6], by simp [h7], ?_,
            by rcases h9 with h9 | h9 <;> simp [h9]⟩
          by_cases hA : allowed = []
          · subst hA
            rfl
          · obtain ⟨u, hu, hs⟩ := h8 hA
            apply Bool.and_eq_false_iff.mpr
            right
            have hany : allowed.any (fun v => m.target.startsWith v) = true :=
              List.any_eq_true.mpr ⟨u, hu, hs⟩
            simp [hany]
  · constructor
    · intro h
      by_contra hv
      rw [Bool.not_eq_false] at hv
      cases hm : toMention params with
      | none =>
          rw [hm] at hv
          simp [handleRequest, hm, hv] at h
      | some m =>
          rw [hm] at hv
          by_cases he : isEnqueueable now st m = true
          · simp [handleRequest, hm, hv, he] at h
          · simp [handleRequest, hm, hv, he] at h
    · intro hv
      simp [handleRequest, hv]

/-- C8: per source, the failure counter never decreases: a verifier step
— whatever the fetch outcome, including a successful verification of the
same source — only ever leaves a counter alone or bumps it, and the
request handler never touches the counters at all. -/
theorem c8_failure_counter_monotone (now : Nat) (fetchOutcome : String → Option FetchResponse)
    (st : AppState) (s : String) (canParse : String → Bool) (allowed : List String)
    (request : Request) (params : List (String × String)) :
    (lookupKey s st.failures).getD 0
        ≤ (lookupKey s (validateMention now fetchOutcome st).1.failures).getD 0 ∧
    (handleRequest canParse allowed now st request params).2.failures = st.failures := by
  constructor
  · cases hq : st.queue with
    | nil =>
        rw [validateMention_nil now fetchOutcome st hq]
    | cons m rest =>
        cases hr : fetchOutcome m.source with
        | none =>
            rw [validateMention_failure now fetchOutcome st m rest hq (by simp [writesStore, hr])]
            exact lookupKey_bump_mono m.source s st.failures
        | some r =>
            by_cases hok : r.ok = true
            · rw [validateMention_success now fetchOutcome st m rest r hq hr hok]
            · by_cases h410 : r.status = 410
              · rw [validateMention_gone now fetchOutcome st m rest r hq hr
                      (by simpa using hok) h410]
              · rw [validateMention_failure now fetchOutcome st m rest hq
                      (by simp [writesStore, hr, Bool.eq_false_iff.mpr hok, h410])]
                exact lookupKey_bump_mono m.source s st.failures
  · by_cases hv : isValid canParse allowed request (toMention params) = true
    · cases hm : toMention params with
      | none =>
          rw [hm] at hv
          simp [handleRequest, hv, hm]
      | some m =>
          rw [hm] at hv
          by_cases he : isEnqueueable now st m = true
          · simp [handleRequest, hv, hm, he]
          · simp [handleRequest, hv, hm, he]
    · simp [handleRequest, hv]

/-- C9: notification identity everywhere in the pipeline is exact string
equality of source and target: both duplicate predicates hold exactly
under string equality of the two fields, and a trailing-slash variant of
a source is a distinct pair — it passes the queue, failure-budget and
freshness gates that its exact twin would fail, and a 2xx verification
of it appends a second store entry rather than updating the first. -/
theorem c9_identity_exact_strings :
    (∀ m e : Mention, isDuplicate m e = true ↔ (e.source = m.source ∧ e.target = m.target)) ∧
    (∀ (m : Mention) (e : StoreEntry),
        isDuplicateEntry m e = true ↔ (e.source = m.source ∧ e.target = m.target)) ∧
    (isDuplicate mentionSlash mentionA = false ∧
     isDuplicateEntry mentionSlash entryMentioned = false ∧
     isEnqueueable 1000
       { queue := [mentionA], webmentions := [entryMentioned],
         failures := [(mentionA.source, 6)] } mentionSlash = true ∧
     isEnqueueable 1000
       { queue := [mentionA], webmentions := [entryMentioned],
         failures := [(mentionA.source, 6)] } mentionA = false ∧
     (validateMention 1000 fetch200A
        { queue := [mentionSlash], webmentions := [entryMentioned],
          failures := [] }).1.webmentions.length = 2) := by
  refine ⟨fun m e => ?_, fun m e => ?_, ?_, ?_, ?_, ?_, ?_⟩
  · simp [isDuplicate]
  · simp [isDuplicateEntry]
  · rfl
  · rfl
  · rfl
  · rfl
  · rfl

/-- C10: a form body binding `source` or `target` to the empty string is
handled like a body missing the parameter: `toMention` yields `null`,
the `!mention` bad-request predicate fires, and the response is 400. -/
theorem c10_empty_param_rejected (canParse : String → Bool) (allowed : List String)
    (now : Nat) (st : AppState) (request : Request) (params : List (String × String))
    (h : getParam params "source" = some "" ∨ getParam params "target" = some "") :
    toMention params = none ∧
    (handleRequest canParse allowed now st request params).1 = 400 := by
  have hm : toMention params = none := by
    rcases h with h | h
    · cases ht : getParam params "target" <;> simp [toMention, h, ht]
    · cases hs : getParam params "source" with
      | none => simp [toMention, hs]
      | some s => simp [toMention, hs, h]
  have hv : isValid canParse allowed request (toMention params) = false := by
    simp [isValid, BAD_REQUEST_PREDICATES, hm]
  refine ⟨hm, ?_⟩
  simp [handleRequest, hv]

/-- Witness for `c10_empty_param_rejected`: a body with `source=` (empty)
and a well-formed target parses to `null` and draws a 400. -/
theorem c10_empty_param_witness :
    getParam [("source", ""), ("target", "https://b.example/page")] "source" = some "" ∧
    toMention [("source", ""), ("target", "https://b.example/page")] = none ∧
    (handleRequest (fun _ => true) [] 1000 stateA requestA
        [("source", ""), ("target", "https://b.example/page")]).1 = 400 := by
  have h := c10_empty_param_rejected (fun _ => true) [] 1000 stateA requestA
    [("source", ""), ("target", "https://b.example/page")] (Or.inl rfl)
  exact ⟨rfl, h.1, h.2⟩

end Webmention
